import Mathlib

/-!
# Verification of the XPBD constraint core

A shallow embedding of the constraint-solving core of the `bevy_xpbd`
rigid-body physics engine: the penetration (contact + friction) constraint
(`src/constraints/penetration.rs`) and the distance joint
(`src/constraints/joints/distance.rs`), together with the shared
generalized-mass / correction kernel they call into.

Scalars are modelled as real numbers; the floating-point `Scalar::EPSILON`
constant becomes the fixed positive real `EPSILON = 2⁻⁵²`.  Vectors are
triples of reals, rotations are quaternions, the world-space inverse inertia
tensor is a 3×3 matrix of reals.

The two constraint files are translated line by line.  The helpers they call
that live outside the two files (the `PositionConstraint` kernel,
`DistanceLimit::compute_correction`, `Friction::combine`, `ContactData`,
the rigid-body view) are modelled from the specification document, and each
such definition carries a doc comment starting with `Modelled from the spec:`.
-/

namespace BevyXpbd

noncomputable section

/-- The degenerate-case guard threshold used throughout the core
(`Scalar::EPSILON` for `f64`, i.e. `2⁻⁵²`). -/
def EPSILON : ℝ := 1 / 2 ^ 52

/-- A 3-dimensional vector of scalars (the core's `Vector` type). -/
@[ext]
structure Vec3 where
  x : ℝ
  y : ℝ
  z : ℝ

instance : Zero Vec3 := ⟨⟨0, 0, 0⟩⟩
instance : Add Vec3 := ⟨fun a b => ⟨a.x + b.x, a.y + b.y, a.z + b.z⟩⟩
instance : Neg Vec3 := ⟨fun a => ⟨-a.x, -a.y, -a.z⟩⟩
instance : Sub Vec3 := ⟨fun a b => ⟨a.x - b.x, a.y - b.y, a.z - b.z⟩⟩
instance : SMul ℝ Vec3 := ⟨fun k a => ⟨k * a.x, k * a.y, k * a.z⟩⟩

/-- Euclidean dot product. -/
def Vec3.dot (a b : Vec3) : ℝ := a.x * b.x + a.y * b.y + a.z * b.z

/-- Cross product. -/
def Vec3.cross (a b : Vec3) : Vec3 :=
  ⟨a.y * b.z - a.z * b.y, a.z * b.x - a.x * b.z, a.x * b.y - a.y * b.x⟩

/-- Euclidean length. -/
def Vec3.length (a : Vec3) : ℝ := Real.sqrt (Vec3.dot a a)

/-- A quaternion, used for body rotations (the core's `Rotation` type holds a
unit quaternion). -/
@[ext]
structure Quat where
  w : ℝ
  x : ℝ
  y : ℝ
  z : ℝ

instance : Zero Quat := ⟨⟨0, 0, 0, 0⟩⟩
instance : Add Quat := ⟨fun a b => ⟨a.w + b.w, a.x + b.x, a.y + b.y, a.z + b.z⟩⟩
instance : SMul ℝ Quat := ⟨fun k a => ⟨k * a.w, k * a.x, k * a.y, k * a.z⟩⟩

/-- Hamilton product of two quaternions. -/
instance : Mul Quat :=
  ⟨fun a b =>
    ⟨a.w * b.w - a.x * b.x - a.y * b.y - a.z * b.z,
     a.w * b.x + a.x * b.w + a.y * b.z - a.z * b.y,
     a.w * b.y - a.x * b.z + a.y * b.w + a.z * b.x,
     a.w * b.z + a.x * b.y - a.y * b.x + a.z * b.w⟩⟩

/-- Squared norm of a quaternion. -/
def Quat.normSq (q : Quat) : ℝ := q.w * q.w + q.x * q.x + q.y * q.y + q.z * q.z

/-- Norm of a quaternion. -/
def Quat.norm (q : Quat) : ℝ := Real.sqrt (Quat.normSq q)

/-- Renormalization of a quaternion after a small-angle update. -/
def Quat.normalize (q : Quat) : Quat := (1 / Quat.norm q) • q

/-- A purely imaginary quaternion built from a vector. -/
def Quat.pure (v : Vec3) : Quat := ⟨0, v.x, v.y, v.z⟩

/-- Modelled from the spec: application of a unit rotation quaternion to a
vector (`Rotation::rotate`, external to the two constraint files); the
standard formula `v + 2w (u × v) + 2 u × (u × v)` for a unit quaternion
`(w, u)`. -/
def Quat.rotate (q : Quat) (v : Vec3) : Vec3 :=
  v + (2 * q.w) • Vec3.cross ⟨q.x, q.y, q.z⟩ v +
    (2 : ℝ) • Vec3.cross ⟨q.x, q.y, q.z⟩ (Vec3.cross ⟨q.x, q.y, q.z⟩ v)

/-- The identity quaternion. -/
def Quat.qid : Quat := ⟨1, 0, 0, 0⟩

/-- A 3×3 matrix of scalars, stored by rows (world-space inverse inertia). -/
@[ext]
structure Mat3 where
  row1 : Vec3
  row2 : Vec3
  row3 : Vec3

instance : Zero Mat3 := ⟨⟨0, 0, 0⟩⟩

/-- Matrix-vector product. -/
def Mat3.mulVec (m : Mat3) (v : Vec3) : Vec3 :=
  ⟨Vec3.dot m.row1 v, Vec3.dot m.row2 v, Vec3.dot m.row3 v⟩

/-- Modelled from the spec: per-body friction coefficients
(static/dynamic), combinable with another body's via a deterministic
combination rule; we fix the rule to componentwise `max`. -/
structure Friction where
  static_coefficient : ℝ
  dynamic_coefficient : ℝ

/-- Modelled from the spec: the deterministic friction combination rule
(componentwise `max` of the two bodies' coefficients). -/
def Friction.combine (f g : Friction) : Friction :=
  ⟨max f.static_coefficient g.static_coefficient,
   max f.dynamic_coefficient g.dynamic_coefficient⟩

/-- Modelled from the spec: the external rigid-body view
(`RigidBodyQueryItem`): current and previous-step position/rotation, inverse
mass, world-space inverse inertia, center-of-mass offset, friction
coefficients, and the body's identifier.  `position` stands for the view's
`current_position()`. -/
@[ext]
structure Body where
  entity : ℕ
  position : Vec3
  rotation : Quat
  previous_position : Vec3
  previous_rotation : Quat
  inverse_mass : ℝ
  inverse_inertia : Mat3
  center_of_mass : Vec3
  friction : Friction

/-- Modelled from the spec: contact data produced by collision detection —
local contact points on each body, a normal stored in body 1's local frame,
and a mutable penetration-depth field updated by the constraint. -/
@[ext]
structure ContactData where
  point1 : Vec3
  point2 : Vec3
  normal1 : Vec3
  penetration : ℝ

/-- Modelled from the spec: the contact normal transformed to world space via
body 1's rotation (`ContactData::global_normal1`). -/
def ContactData.global_normal1 (c : ContactData) (rot : Quat) : Vec3 :=
  rot.rotate c.normal1

/-- Modelled from the spec (kernel 4.1): generalized inverse mass of a body
along direction `d` with world-space contact offset `r`:
`w = invMass + (invInertia · (r × d)) · (r × d)`
(`PositionConstraint::compute_generalized_inverse_mass`). -/
def generalized_inverse_mass (b : Body) (r d : Vec3) : ℝ :=
  b.inverse_mass + Vec3.dot (b.inverse_inertia.mulVec (Vec3.cross r d)) (Vec3.cross r d)

/-- Modelled from the spec (kernel 4.1): the XPBD Lagrange-multiplier
increment `Δλ = (−C − α̃·λ) / (w1 + w2 + α̃)` with `α̃ = α / dt²`, guarded to
zero when the denominator is numerically zero
(`XpbdConstraint::compute_lagrange_update`; the per-body gradients are unit
directions here, so only the inverse-mass sum enters). -/
def compute_lagrange_update (lagrange c w1 w2 compliance dt : ℝ) : ℝ :=
  if w1 + w2 + compliance / dt ^ 2 ≤ EPSILON then 0
  else (-c - compliance / dt ^ 2 * lagrange) / (w1 + w2 + compliance / dt ^ 2)

/-- Modelled from the spec (kernel 4.1): apply the positional part of a
correction with impulse `p` (already carrying the per-body gradient sign) and
world-space offset `r` to one body: the position moves by `invMass · p` and
the rotation is composed with the small-angle quaternion built from
`invInertia · (r × p)`, then renormalized
(`PositionConstraint::apply_positional_correction`, one body's half). -/
def apply_correction (b : Body) (p r : Vec3) : Body :=
  { b with
    position := b.position + b.inverse_mass • p,
    rotation :=
      Quat.normalize
        (b.rotation +
          (1 / 2 : ℝ) • (Quat.pure (b.inverse_inertia.mulVec (Vec3.cross r p)) * b.rotation)) }

/-! ## The penetration constraint (`src/constraints/penetration.rs`) -/

/-- A constraint between two bodies that prevents overlap with a given
compliance (`PenetrationConstraint`). -/
@[ext]
structure PenetrationConstraint where
  entity1 : ℕ
  entity2 : ℕ
  contact : ContactData
  r1 : Vec3
  r2 : Vec3
  normal_lagrange : ℝ
  tangent_lagrange : ℝ
  compliance : ℝ
  normal_force : Vec3
  static_friction_force : Vec3

/-- `PenetrationConstraint::entities`. -/
def PenetrationConstraint.entities (pc : PenetrationConstraint) : List ℕ :=
  [pc.entity1, pc.entity2]

/-- `PenetrationConstraint::clear_lagrange_multipliers`. -/
def PenetrationConstraint.clear_lagrange_multipliers
    (pc : PenetrationConstraint) : PenetrationConstraint :=
  { pc with normal_lagrange := 0, tangent_lagrange := 0 }

/-- `PenetrationConstraint::new`. -/
def PenetrationConstraint.new (body1 body2 : Body) (contact : ContactData) :
    PenetrationConstraint :=
  { entity1 := body1.entity
    entity2 := body2.entity
    contact := contact
    r1 := contact.point1 - body1.center_of_mass
    r2 := contact.point2 - body2.center_of_mass
    normal_lagrange := 0
    tangent_lagrange := 0
    compliance := 0
    normal_force := 0
    static_friction_force := 0 }

/-- The mutable state touched by one `PenetrationConstraint::solve` call:
the constraint itself and the two body views. -/
@[ext]
structure PenState where
  pc : PenetrationConstraint
  b1 : Body
  b2 : Body

/-- The penetration depth recomputed at the top of
`PenetrationConstraint::solve`: the signed projection of the difference of
the world contact points onto the world contact normal. -/
def recomputed_penetration (s : PenState) : ℝ :=
  Vec3.dot
    ((s.b1.position + s.b1.rotation.rotate s.pc.contact.point1) -
      (s.b2.position + s.b2.rotation.rotate s.pc.contact.point2))
    (s.pc.contact.global_normal1 s.b1.rotation)

/-- Store the recomputed penetration into the constraint's contact data
(the write `self.contact.penetration = …` in `solve`). -/
def set_penetration (s : PenState) : PenState :=
  { s with pc := { s.pc with contact := { s.pc.contact with
      penetration := recomputed_penetration s } } }

/-- The world contact normal used by both solve phases
(`self.contact.global_normal1(&body1.rotation)`). -/
def contact_normal (s : PenState) : Vec3 :=
  s.pc.contact.global_normal1 s.b1.rotation

/-- Body 1's contact offset rotated into world space. -/
def world_r1 (s : PenState) : Vec3 := s.b1.rotation.rotate s.pc.r1

/-- Body 2's contact offset rotated into world space. -/
def world_r2 (s : PenState) : Vec3 := s.b2.rotation.rotate s.pc.r2

/-- The Lagrange increment computed by `solve_contact`. -/
def contact_delta_lagrange (s : PenState) (dt : ℝ) : ℝ :=
  compute_lagrange_update s.pc.normal_lagrange s.pc.contact.penetration
    (generalized_inverse_mass s.b1 (world_r1 s) (contact_normal s))
    (generalized_inverse_mass s.b2 (world_r2 s) (contact_normal s))
    s.pc.compliance dt

/-- `PenetrationConstraint::solve_contact`: solve the non-penetration part —
update the normal Lagrange multiplier, apply the positional correction along
the contact normal to both bodies, and recover the normal force
`λ_n · n / dt²`. -/
def solve_contact (s : PenState) (dt : ℝ) : PenState :=
  { pc := { s.pc with
      normal_lagrange := s.pc.normal_lagrange + contact_delta_lagrange s dt,
      normal_force :=
        ((s.pc.normal_lagrange + contact_delta_lagrange s dt) / dt ^ 2) • contact_normal s }
    b1 := apply_correction s.b1 (contact_delta_lagrange s dt • contact_normal s) (world_r1 s)
    b2 := apply_correction s.b2 (-(contact_delta_lagrange s dt • contact_normal s)) (world_r2 s) }

/-- The relative motion of the contact points since the start of the step
(`delta_p` in `solve_friction`). -/
def friction_delta_p (s : PenState) : Vec3 :=
  (s.b1.position - s.b1.previous_position + s.b1.rotation.rotate s.pc.contact.point1
      - s.b1.previous_rotation.rotate s.pc.contact.point1) -
    (s.b2.position - s.b2.previous_position + s.b2.rotation.rotate s.pc.contact.point2
      - s.b2.previous_rotation.rotate s.pc.contact.point2)

/-- The tangential component of the relative motion
(`delta_p_tangent` in `solve_friction`). -/
def friction_tangent_vec (s : PenState) : Vec3 :=
  friction_delta_p s -
    Vec3.dot (friction_delta_p s) (contact_normal s) • contact_normal s

/-- Magnitude of the relative tangential movement (`sliding_len`). -/
def sliding_len (s : PenState) : ℝ := (friction_tangent_vec s).length

/-- The normalized tangent direction (`tangent`). -/
def friction_unit_tangent (s : PenState) : Vec3 :=
  (1 / sliding_len s) • friction_tangent_vec s

/-- The combined static friction coefficient
(`body1.friction.combine(*body2.friction).static_coefficient`). -/
def combined_static (s : PenState) : ℝ :=
  (Friction.combine s.b1.friction s.b2.friction).static_coefficient

/-- The sum of the two generalized inverse masses along the tangent
(`w1 + w2` in `solve_friction`). -/
def friction_w_sum (s : PenState) : ℝ :=
  generalized_inverse_mass s.b1 (world_r1 s) (friction_unit_tangent s) +
    generalized_inverse_mass s.b2 (world_r2 s) (friction_unit_tangent s)

/-- The Lagrange increment computed in the static-friction branch. -/
def friction_delta_lagrange (s : PenState) (dt : ℝ) : ℝ :=
  compute_lagrange_update s.pc.tangent_lagrange (sliding_len s)
    (generalized_inverse_mass s.b1 (world_r1 s) (friction_unit_tangent s))
    (generalized_inverse_mass s.b2 (world_r2 s) (friction_unit_tangent s))
    s.pc.compliance dt

/-- `PenetrationConstraint::solve_friction`: compute the relative tangential
motion since the start of the step; return unchanged when its magnitude is at
most `EPSILON`; otherwise apply static friction only when the sliding
magnitude is below `static_coefficient × penetration`, updating the tangent
Lagrange multiplier, applying the positional correction along the tangent,
and recovering the static friction force `λ_t · t / dt²`. -/
def solve_friction (s : PenState) (dt : ℝ) : PenState :=
  if sliding_len s ≤ EPSILON then s
  else if sliding_len s < combined_static s * s.pc.contact.penetration then
    { pc := { s.pc with
        tangent_lagrange := s.pc.tangent_lagrange + friction_delta_lagrange s dt,
        static_friction_force :=
          ((s.pc.tangent_lagrange + friction_delta_lagrange s dt) / dt ^ 2) •
            friction_unit_tangent s }
      b1 := apply_correction s.b1
        (friction_delta_lagrange s dt • friction_unit_tangent s) (world_r1 s)
      b2 := apply_correction s.b2
        (-(friction_delta_lagrange s dt • friction_unit_tangent s)) (world_r2 s) }
  else s

/-- `PenetrationConstraint::solve` (the `XpbdConstraint` implementation):
recompute and store the penetration depth from the current positions and
rotations; if it is at most `EPSILON`, return; otherwise solve the contact
and then the friction constraint. -/
def PenetrationConstraint.solve (s : PenState) (dt : ℝ) : PenState :=
  if recomputed_penetration s ≤ EPSILON then set_penetration s
  else solve_friction (solve_contact (set_penetration s) dt) dt

/-! ## The distance joint (`src/constraints/joints/distance.rs`) -/

/-- An immutable min/max scalar pair defining an allowed separation range
(`DistanceLimit`). -/
structure DistanceLimit where
  min : ℝ
  max : ℝ

/-- Modelled from the spec: `DistanceLimit::compute_correction` (external to
the two constraint files) — given the two world anchor points, return the
correction that, added to the separation vector, leaves only the component of
the separation outside `[min, max]` (zero if the separation is within
range). -/
def DistanceLimit.compute_correction (l : DistanceLimit) (p1 p2 : Vec3) : Vec3 :=
  if (p1 - p2).length < l.min then -((l.min / (p1 - p2).length) • (p1 - p2))
  else if l.max < (p1 - p2).length then -((l.max / (p1 - p2).length) • (p1 - p2))
  else 0

/-- A distance joint keeping the attached bodies at a certain distance from
each other (`DistanceJoint`). -/
@[ext]
structure DistanceJoint where
  entity1 : ℕ
  entity2 : ℕ
  local_anchor1 : Vec3
  local_anchor2 : Vec3
  rest_length : ℝ
  length_limits : Option DistanceLimit
  damping_linear : ℝ
  damping_angular : ℝ
  lagrange : ℝ
  compliance : ℝ
  force : Vec3

/-- `DistanceJoint::clear_lagrange_multipliers`. -/
def DistanceJoint.clear_lagrange_multipliers (j : DistanceJoint) : DistanceJoint :=
  { j with lagrange := 0 }

/-- The mutable state touched by one `DistanceJoint::solve` call. -/
@[ext]
structure DJState where
  joint : DistanceJoint
  b1 : Body
  b2 : Body

/-- Body 1's local anchor rotated into world space (`world_r1`). -/
def dj_world_r1 (st : DJState) : Vec3 := st.b1.rotation.rotate st.joint.local_anchor1

/-- Body 2's local anchor rotated into world space (`world_r2`). -/
def dj_world_r2 (st : DJState) : Vec3 := st.b2.rotation.rotate st.joint.local_anchor2

/-- The raw world anchor separation
`(pos1 + world_r1) − (pos2 + world_r2)` (`delta_x` before the limit
correction). -/
def dj_raw_delta_x (st : DJState) : Vec3 :=
  (st.b1.position + dj_world_r1 st) - (st.b2.position + dj_world_r2 st)

/-- The separation vector actually constrained: the raw separation, plus the
limit's correction vector computed from the two world anchor points when
limits are configured. -/
def dj_effective_delta_x (st : DJState) : Vec3 :=
  match st.joint.length_limits with
  | none => dj_raw_delta_x st
  | some limits =>
      dj_raw_delta_x st +
        limits.compute_correction (st.b1.position + dj_world_r1 st)
          (st.b2.position + dj_world_r2 st)

/-- The tail of `DistanceJoint::constrain_length` from the computation of the
constraint value `c` on: guard on degenerate length or satisfied constraint,
normalize the separation into the gradient, update the Lagrange multiplier,
apply the positional correction, and return the recovered force
`λ · n / dt²`. -/
def constrain_length_core (st : DJState) (dt : ℝ) (delta_x : Vec3) : DJState × Vec3 :=
  if delta_x.length < EPSILON ∨ |delta_x.length - st.joint.rest_length| < EPSILON then
    (st, 0)
  else
    let n : Vec3 := (1 / delta_x.length) • delta_x
    let dl : ℝ :=
      compute_lagrange_update st.joint.lagrange (delta_x.length - st.joint.rest_length)
        (generalized_inverse_mass st.b1 (dj_world_r1 st) n)
        (generalized_inverse_mass st.b2 (dj_world_r2 st) n)
        st.joint.compliance dt
    ({ joint := { st.joint with lagrange := st.joint.lagrange + dl }
       b1 := apply_correction st.b1 (dl • n) (dj_world_r1 st)
       b2 := apply_correction st.b2 (-(dl • n)) (dj_world_r2 st) },
     ((st.joint.lagrange + dl) / dt ^ 2) • n)

/-- `DistanceJoint::constrain_length`: compute the world anchors and the raw
separation; when limits are configured, guard on a degenerate raw length and
otherwise bias the separation by the limit correction; then run the common
tail on the resulting separation vector. -/
def DistanceJoint.constrain_length (st : DJState) (dt : ℝ) : DJState × Vec3 :=
  match st.joint.length_limits with
  | none => constrain_length_core st dt (dj_raw_delta_x st)
  | some _ =>
      if (dj_raw_delta_x st).length < EPSILON then (st, 0)
      else constrain_length_core st dt (dj_effective_delta_x st)

/-- `DistanceJoint::solve`: run `constrain_length` and store the returned
force in the joint. -/
def DistanceJoint.solve (st : DJState) (dt : ℝ) : DJState :=
  { (DistanceJoint.constrain_length st dt).1 with
    joint := { (DistanceJoint.constrain_length st dt).1.joint with
      force := (DistanceJoint.constrain_length st dt).2 } }

/-- The distance-joint algorithm as worded by the specification (section 4.3,
steps 1–6), for refinement comparison with `DistanceJoint.constrain_length`:
when limits are configured the correction is added and the length recomputed
with no guard on the raw separation; the degenerate guards apply to the
recomputed length only. -/
def constrain_length_worded (st : DJState) (dt : ℝ) : DJState × Vec3 :=
  constrain_length_core st dt (dj_effective_delta_x st)

/-- The degenerate zero-guard condition of the distance joint: the raw world
anchor separation length is below `EPSILON`, or the constraint value
`|length − rest_length|` (on the separation actually constrained) is below
`EPSILON`. -/
def dj_zero_guard (st : DJState) : Prop :=
  (dj_raw_delta_x st).length < EPSILON ∨
    |(dj_effective_delta_x st).length - st.joint.rest_length| < EPSILON

/-! ## Concrete states used by the witnesses and counterexamples -/

/-- A body at rest at the origin with identity rotation, infinite mass and
inertia, and unit friction coefficients. -/
def bZero : Body :=
  { entity := 0, position := 0, rotation := Quat.qid, previous_position := 0
    previous_rotation := Quat.qid, inverse_mass := 0, inverse_inertia := 0
    center_of_mass := 0, friction := ⟨1, 1⟩ }

/-- A body with the given current position, previous position and inverse
mass, identity rotations, zero inverse inertia, zero center of mass and unit
friction coefficients. -/
def bAt (p q : Vec3) (im : ℝ) : Body :=
  { entity := 0, position := p, rotation := Quat.qid, previous_position := q
    previous_rotation := Quat.qid, inverse_mass := im, inverse_inertia := 0
    center_of_mass := 0, friction := ⟨1, 1⟩ }

/-- Contact data with both local points at the origin and the local normal
along the z-axis. -/
def contactZ : ContactData := ⟨0, 0, ⟨0, 0, 1⟩, 0⟩

/-- A fully degenerate penetration state: both bodies at rest at the origin. -/
def sZero : PenState :=
  ⟨PenetrationConstraint.new bZero bZero contactZ, bZero, bZero⟩

/-- Two kinematic (immovable but externally moved) bodies in contact with
penetration depth 1; body 1 has slid by `1/10` along the x-axis since the
start of the step. -/
def sK : PenState :=
  ⟨PenetrationConstraint.new (bAt ⟨1 / 10, 0, 1⟩ ⟨0, 0, 1⟩ 0) (bAt 0 0 0) contactZ,
   bAt ⟨1 / 10, 0, 1⟩ ⟨0, 0, 1⟩ 0, bAt 0 0 0⟩

/-- Two kinematic bodies in contact with penetration depth 1; body 1 has slid
by `2` along the x-axis — beyond the static friction threshold. -/
def sL : PenState :=
  ⟨PenetrationConstraint.new (bAt ⟨2, 0, 1⟩ ⟨0, 0, 1⟩ 0) (bAt 0 0 0) contactZ,
   bAt ⟨2, 0, 1⟩ ⟨0, 0, 1⟩ 0, bAt 0 0 0⟩

/-- The identity 3×3 matrix. -/
def matId : Mat3 := ⟨⟨1, 0, 0⟩, ⟨0, 1, 0⟩, ⟨0, 0, 1⟩⟩

/-- A body pinned at the origin (zero inverse mass) that can rotate freely
(identity inverse inertia), with unit friction coefficients. -/
def bRot : Body :=
  { entity := 1, position := 0, rotation := Quat.qid, previous_position := 0
    previous_rotation := Quat.qid, inverse_mass := 0, inverse_inertia := matId
    center_of_mass := 0, friction := ⟨1, 1⟩ }

/-- Contact data with body 1's local point at the origin, body 2's local
point one unit up the z-axis, and the local normal along the z-axis.  The
contact offset `r2 = point2` is parallel to the normal, so body 2 resists no
torque along the normal but does resist torque along the tangent. -/
def contactZ2 : ContactData := ⟨0, ⟨0, 0, 1⟩, ⟨0, 0, 1⟩, 0⟩

/-- A kinematic body 1 that slid by `1/10` against the pinned rotating body
`bRot`, in contact with penetration depth 1: the contact phase is a no-op
(zero generalized inverse mass along the normal) but the friction phase sees
a positive generalized inverse mass along the tangent. -/
def sM : PenState :=
  ⟨PenetrationConstraint.new (bAt ⟨1 / 10, 0, 2⟩ ⟨0, 0, 2⟩ 0) bRot contactZ2,
   bAt ⟨1 / 10, 0, 2⟩ ⟨0, 0, 2⟩ 0, bRot⟩

/-- A distance joint with anchors at the centers, rest length 0, and no
limits. -/
def jointZ : DistanceJoint :=
  { entity1 := 0, entity2 := 1, local_anchor1 := 0, local_anchor2 := 0
    rest_length := 0, length_limits := none, damping_linear := 0
    damping_angular := 0, lagrange := 0, compliance := 0, force := 0 }

/-- The same joint with separation limits `[2, 3]`. -/
def jointLim : DistanceJoint := { jointZ with length_limits := some ⟨2, 3⟩ }

/-- A distance-joint state exactly at rest length (both bodies at the
origin), no limits. -/
def stZ : DJState := ⟨jointZ, bAt 0 0 0, bAt 0 0 0⟩

/-- A limited distance joint with raw separation 1 along the x-axis and two
movable bodies. -/
def stC6w : DJState := ⟨jointLim, bAt ⟨1, 0, 0⟩ ⟨1, 0, 0⟩ 1, bAt 0 0 1⟩

/-- A limited distance joint whose raw separation `EPSILON / 2` is positive
but below the degenerate-length guard. -/
def stC6c : DJState :=
  ⟨jointLim, bAt ⟨EPSILON / 2, 0, 0⟩ ⟨EPSILON / 2, 0, 0⟩ 1, bAt 0 0 1⟩

/-- A distance joint between an immovable body 1 and a movable body 2 at
separation 1. -/
def stC8 : DJState := ⟨jointZ, bAt 0 0 0, bAt ⟨1, 0, 0⟩ ⟨1, 0, 0⟩ 1⟩

end

/-! ## Helper lemmas -/

noncomputable section

@[simp] theorem Vec3.zero_x : (0 : Vec3).x = 0 := rfl
@[simp] theorem Vec3.zero_y : (0 : Vec3).y = 0 := rfl
@[simp] theorem Vec3.zero_z : (0 : Vec3).z = 0 := rfl
@[simp] theorem Vec3.add_x (a b : Vec3) : (a + b).x = a.x + b.x := rfl
@[simp] theorem Vec3.add_y (a b : Vec3) : (a + b).y = a.y + b.y := rfl
@[simp] theorem Vec3.add_z (a b : Vec3) : (a + b).z = a.z + b.z := rfl
@[simp] theorem Vec3.neg_x (a : Vec3) : (-a).x = -a.x := rfl
@[simp] theorem Vec3.neg_y (a : Vec3) : (-a).y = -a.y := rfl
@[simp] theorem Vec3.neg_z (a : Vec3) : (-a).z = -a.z := rfl
@[simp] theorem Vec3.sub_x (a b : Vec3) : (a - b).x = a.x - b.x := rfl
@[simp] theorem Vec3.sub_y (a b : Vec3) : (a - b).y = a.y - b.y := rfl
@[simp] theorem Vec3.sub_z (a b : Vec3) : (a - b).z = a.z - b.z := rfl
@[simp] theorem Vec3.smul_x (k : ℝ) (a : Vec3) : (k • a).x = k * a.x := rfl
@[simp] theorem Vec3.smul_y (k : ℝ) (a : Vec3) : (k • a).y = k * a.y := rfl
@[simp] theorem Vec3.smul_z (k : ℝ) (a : Vec3) : (k • a).z = k * a.z := rfl

@[simp] theorem Vec3.smul_zero' (k : ℝ) : k • (0 : Vec3) = 0 := by
  ext <;> simp

@[simp] theorem Vec3.zero_smul' (a : Vec3) : (0 : ℝ) • a = 0 := by
  ext <;> simp

@[simp] theorem Vec3.add_zero' (a : Vec3) : a + 0 = a := by
  ext <;> simp

@[simp] theorem Vec3.zero_add' (a : Vec3) : 0 + a = a := by
  ext <;> simp

@[simp] theorem Vec3.sub_zero' (a : Vec3) : a - 0 = a := by
  ext <;> simp

@[simp] theorem Vec3.neg_zero' : -(0 : Vec3) = 0 := by
  ext <;> simp

@[simp] theorem Vec3.cross_zero (a : Vec3) : Vec3.cross a 0 = 0 := by
  ext <;> simp [Vec3.cross]

@[simp] theorem Vec3.zero_cross (a : Vec3) : Vec3.cross 0 a = 0 := by
  ext <;> simp [Vec3.cross]

@[simp] theorem Vec3.dot_zero (a : Vec3) : Vec3.dot a 0 = 0 := by
  simp [Vec3.dot]

@[simp] theorem Vec3.zero_dot (a : Vec3) : Vec3.dot 0 a = 0 := by
  simp [Vec3.dot]

theorem Vec3.smul_smul' (k l : ℝ) (a : Vec3) : k • (l • a) = (k * l) • a := by
  ext <;> simp <;> ring

/-- Length of an x-axis aligned vector. -/
theorem Vec3.length_xaxis (a : ℝ) : Vec3.length ⟨a, 0, 0⟩ = |a| := by
  have h : Vec3.dot ⟨a, 0, 0⟩ ⟨a, 0, 0⟩ = a ^ 2 := by simp [Vec3.dot]; ring
  rw [Vec3.length, h, Real.sqrt_sq_eq_abs]

@[simp] theorem Vec3.length_zero : Vec3.length (0 : Vec3) = 0 := by
  simp [Vec3.length, Vec3.dot]

@[simp] theorem Quat.qzero_w : (0 : Quat).w = 0 := rfl
@[simp] theorem Quat.qzero_x : (0 : Quat).x = 0 := rfl
@[simp] theorem Quat.qzero_y : (0 : Quat).y = 0 := rfl
@[simp] theorem Quat.qzero_z : (0 : Quat).z = 0 := rfl
@[simp] theorem Quat.qadd_w (a b : Quat) : (a + b).w = a.w + b.w := rfl
@[simp] theorem Quat.qadd_x (a b : Quat) : (a + b).x = a.x + b.x := rfl
@[simp] theorem Quat.qadd_y (a b : Quat) : (a + b).y = a.y + b.y := rfl
@[simp] theorem Quat.qadd_z (a b : Quat) : (a + b).z = a.z + b.z := rfl
@[simp] theorem Quat.qsmul_w (k : ℝ) (a : Quat) : (k • a).w = k * a.w := rfl
@[simp] theorem Quat.qsmul_x (k : ℝ) (a : Quat) : (k • a).x = k * a.x := rfl
@[simp] theorem Quat.qsmul_y (k : ℝ) (a : Quat) : (k • a).y = k * a.y := rfl
@[simp] theorem Quat.qsmul_z (k : ℝ) (a : Quat) : (k • a).z = k * a.z := rfl
@[simp] theorem Quat.mul_w (a b : Quat) :
    (a * b).w = a.w * b.w - a.x * b.x - a.y * b.y - a.z * b.z := rfl
@[simp] theorem Quat.mul_x (a b : Quat) :
    (a * b).x = a.w * b.x + a.x * b.w + a.y * b.z - a.z * b.y := rfl
@[simp] theorem Quat.mul_y (a b : Quat) :
    (a * b).y = a.w * b.y - a.x * b.z + a.y * b.w + a.z * b.x := rfl
@[simp] theorem Quat.mul_z (a b : Quat) :
    (a * b).z = a.w * b.z + a.x * b.y - a.y * b.x + a.z * b.w := rfl

@[simp] theorem Quat.qid_rotate (v : Vec3) : Quat.rotate Quat.qid v = v := by
  ext <;> simp [Quat.rotate, Quat.qid, Vec3.cross]

@[simp] theorem Quat.zero_mul' (q : Quat) : (0 : Quat) * q = 0 := by
  ext <;> simp

@[simp] theorem Quat.smul_zero'' (k : ℝ) : k • (0 : Quat) = 0 := by
  ext <;> simp

@[simp] theorem Quat.add_zero'' (q : Quat) : q + 0 = q := by
  ext <;> simp

@[simp] theorem Quat.pure_zero : Quat.pure (0 : Vec3) = 0 := by
  ext <;> simp [Quat.pure]

@[simp] theorem Quat.norm_qid : Quat.norm Quat.qid = 1 := by
  simp [Quat.norm, Quat.normSq, Quat.qid]

theorem Quat.normalize_of_norm_one {q : Quat} (h : Quat.norm q = 1) :
    Quat.normalize q = q := by
  ext <;> simp [Quat.normalize, h]

@[simp] theorem Mat3.zero_row1 : (0 : Mat3).row1 = 0 := rfl
@[simp] theorem Mat3.zero_row2 : (0 : Mat3).row2 = 0 := rfl
@[simp] theorem Mat3.zero_row3 : (0 : Mat3).row3 = 0 := rfl

@[simp] theorem Mat3.mulVec_zero (m : Mat3) : Mat3.mulVec m 0 = 0 := by
  ext <;> simp [Mat3.mulVec]

@[simp] theorem Mat3.zero_mulVec (v : Vec3) : Mat3.mulVec 0 v = 0 := by
  ext <;> simp [Mat3.mulVec]

theorem EPSILON_pos : 0 < EPSILON := by norm_num [EPSILON]

theorem apply_correction_zero {b : Body} (h : Quat.norm b.rotation = 1) (r : Vec3) :
    apply_correction b 0 r = b := by
  have hpos : b.position + b.inverse_mass • (0 : Vec3) = b.position := by
    ext <;> simp
  have hrot :
      b.rotation +
        (1 / 2 : ℝ) • (Quat.pure (b.inverse_inertia.mulVec (Vec3.cross r 0)) * b.rotation) =
        b.rotation := by
    ext <;> simp
  unfold apply_correction
  rw [hpos, hrot, Quat.normalize_of_norm_one h]

theorem apply_correction_immovable {b : Body} (hm : b.inverse_mass = 0)
    (hi : b.inverse_inertia = 0) (h : Quat.norm b.rotation = 1) (p r : Vec3) :
    apply_correction b p r = b := by
  have hpos : b.position + b.inverse_mass • p = b.position := by
    ext <;> simp [hm]
  have hrot :
      b.rotation +
        (1 / 2 : ℝ) • (Quat.pure (b.inverse_inertia.mulVec (Vec3.cross r p)) * b.rotation) =
        b.rotation := by
    ext <;> simp [hi]
  unfold apply_correction
  rw [hpos, hrot, Quat.normalize_of_norm_one h]

theorem solve_contact_keeps_contact (s : PenState) (dt : ℝ) :
    (solve_contact s dt).pc.contact = s.pc.contact := rfl

theorem solve_friction_keeps_contact (s : PenState) (dt : ℝ) :
    (solve_friction s dt).pc.contact = s.pc.contact := by
  unfold solve_friction
  split
  · rfl
  · split <;> rfl

/-! ## Claim theorems -/

/-- C4: after `clear_lagrange_multipliers`, the accumulated multipliers are
exactly zero — `DistanceJoint.lagrange = 0`, and
`PenetrationConstraint.normal_lagrange = 0` and
`PenetrationConstraint.tangent_lagrange = 0` — regardless of their previous
values, and no other field of the constraint is changed. -/
theorem multiplier_reset :
    (∀ j : DistanceJoint,
        j.clear_lagrange_multipliers.lagrange = 0 ∧
        j.clear_lagrange_multipliers = { j with lagrange := 0 }) ∧
    (∀ pc : PenetrationConstraint,
        pc.clear_lagrange_multipliers.normal_lagrange = 0 ∧
        pc.clear_lagrange_multipliers.tangent_lagrange = 0 ∧
        pc.clear_lagrange_multipliers =
          { pc with normal_lagrange := 0, tangent_lagrange := 0 }) :=
  ⟨fun _ => ⟨rfl, rfl⟩, fun _ => ⟨rfl, rfl, rfl⟩⟩

/-- C10: `PenetrationConstraint::new` returns a constraint with zero Lagrange
multipliers, zero compliance, zero forces, local offsets
`r1 = contact.point1 − com1` and `r2 = contact.point2 − com2`, and
`entities() = [entity1, entity2]` in that order. -/
theorem new_constraint_fields (body1 body2 : Body) (contact : ContactData) :
    (PenetrationConstraint.new body1 body2 contact).normal_lagrange = 0 ∧
    (PenetrationConstraint.new body1 body2 contact).tangent_lagrange = 0 ∧
    (PenetrationConstraint.new body1 body2 contact).compliance = 0 ∧
    (PenetrationConstraint.new body1 body2 contact).normal_force = 0 ∧
    (PenetrationConstraint.new body1 body2 contact).static_friction_force = 0 ∧
    (PenetrationConstraint.new body1 body2 contact).r1 =
      contact.point1 - body1.center_of_mass ∧
    (PenetrationConstraint.new body1 body2 contact).r2 =
      contact.point2 - body2.center_of_mass ∧
    (PenetrationConstraint.new body1 body2 contact).entities =
      [body1.entity, body2.entity] :=
  ⟨rfl, rfl, rfl, rfl, rfl, rfl, rfl, rfl⟩

/-- C9: every call to `PenetrationConstraint::solve` overwrites the stored
`contact.penetration` with the signed projection of the world contact-point
difference onto the rotated contact normal, computed from the bodies'
current positions and rotations — including calls that return early because
the penetration is at most `EPSILON`. -/
theorem solve_writes_penetration (s : PenState) (dt : ℝ) :
    (PenetrationConstraint.solve s dt).pc.contact.penetration =
      Vec3.dot
        ((s.b1.position + s.b1.rotation.rotate s.pc.contact.point1) -
          (s.b2.position + s.b2.rotation.rotate s.pc.contact.point2))
        (s.pc.contact.global_normal1 s.b1.rotation) := by
  unfold PenetrationConstraint.solve
  split
  · rfl
  · rw [solve_friction_keeps_contact, solve_contact_keeps_contact]
    rfl

/-- C3: when the recomputed penetration depth is at most `EPSILON`,
`PenetrationConstraint::solve` returns after only storing the recomputed
penetration, leaving both bodies and the multiplier/force fields
untouched. -/
theorem solve_skips_when_no_overlap (s : PenState) (dt : ℝ)
    (h : recomputed_penetration s ≤ EPSILON) :
    PenetrationConstraint.solve s dt = set_penetration s ∧
    (PenetrationConstraint.solve s dt).b1 = s.b1 ∧
    (PenetrationConstraint.solve s dt).b2 = s.b2 ∧
    (PenetrationConstraint.solve s dt).pc.normal_lagrange = s.pc.normal_lagrange ∧
    (PenetrationConstraint.solve s dt).pc.tangent_lagrange = s.pc.tangent_lagrange ∧
    (PenetrationConstraint.solve s dt).pc.normal_force = s.pc.normal_force ∧
    (PenetrationConstraint.solve s dt).pc.static_friction_force =
      s.pc.static_friction_force := by
  have he : PenetrationConstraint.solve s dt = set_penetration s := by
    unfold PenetrationConstraint.solve
    rw [if_pos h]
  exact ⟨he, by rw [he]; rfl, by rw [he]; rfl, by rw [he]; rfl, by rw [he]; rfl,
    by rw [he]; rfl, by rw [he]; rfl⟩

theorem sZero_pen : recomputed_penetration sZero = 0 := by
  simp [recomputed_penetration, sZero, bZero, contactZ, PenetrationConstraint.new,
    ContactData.global_normal1]

/-- Witness for C3: a concrete non-overlapping state on which the skipped
solve leaves everything but the stored penetration unchanged. -/
theorem solve_skips_when_no_overlap_witness :
    recomputed_penetration sZero ≤ EPSILON ∧
    PenetrationConstraint.solve sZero 1 = set_penetration sZero := by
  have h : recomputed_penetration sZero ≤ EPSILON := by
    rw [sZero_pen]
    exact le_of_lt EPSILON_pos
  exact ⟨h, (solve_skips_when_no_overlap sZero 1 h).1⟩

theorem friction_delta_p_eq (s : PenState) :
    friction_delta_p s =
      ((s.b1.position + s.b1.rotation.rotate s.pc.contact.point1) -
          (s.b1.previous_position + s.b1.previous_rotation.rotate s.pc.contact.point1)) -
        ((s.b2.position + s.b2.rotation.rotate s.pc.contact.point2) -
          (s.b2.previous_position + s.b2.previous_rotation.rotate s.pc.contact.point2)) := by
  unfold friction_delta_p
  ext <;> simp <;> ring

/-- C5: the sliding vector of the friction phase is the relative motion of
the contact points since the start of the step — per body,
(current position + current rotation applied to the contact point) minus
(previous position + previous rotation applied to the contact point), body
2's motion subtracted from body 1's — with the component along the contact
normal removed; and when its magnitude is at most `EPSILON` the friction
phase returns with no change to bodies, multipliers, or forces. -/
theorem sliding_vector_and_skip (s : PenState) (dt : ℝ) :
    (friction_tangent_vec s =
      (((s.b1.position + s.b1.rotation.rotate s.pc.contact.point1) -
          (s.b1.previous_position + s.b1.previous_rotation.rotate s.pc.contact.point1)) -
        ((s.b2.position + s.b2.rotation.rotate s.pc.contact.point2) -
          (s.b2.previous_position + s.b2.previous_rotation.rotate s.pc.contact.point2))) -
        Vec3.dot (friction_delta_p s) (contact_normal s) • contact_normal s) ∧
    (sliding_len s ≤ EPSILON → solve_friction s dt = s) := by
  constructor
  · unfold friction_tangent_vec
    rw [friction_delta_p_eq]
  · intro h
    unfold solve_friction
    rw [if_pos h]

theorem sZero_sliding : sliding_len sZero = 0 := by
  have hdp : friction_tangent_vec sZero = 0 := by
    ext <;>
      simp [friction_tangent_vec, friction_delta_p, contact_normal, sZero, bZero,
        contactZ, PenetrationConstraint.new, ContactData.global_normal1, Vec3.dot]
  rw [sliding_len, hdp, Vec3.length_zero]

/-- Witness for C5: a concrete state with zero sliding on which the friction
phase is the identity. -/
theorem sliding_vector_and_skip_witness :
    sliding_len sZero ≤ EPSILON ∧ solve_friction sZero 1 = sZero := by
  have h : sliding_len sZero ≤ EPSILON := by
    rw [sZero_sliding]
    exact le_of_lt EPSILON_pos
  exact ⟨h, (sliding_vector_and_skip sZero 1).2 h⟩

theorem constrain_length_core_b1 (st : DJState) (dt : ℝ) (dx : Vec3)
    (hm : st.b1.inverse_mass = 0) (hi : st.b1.inverse_inertia = 0)
    (hq : Quat.norm st.b1.rotation = 1) :
    (constrain_length_core st dt dx).1.b1 = st.b1 := by
  unfold constrain_length_core
  split
  · rfl
  · exact apply_correction_immovable hm hi hq _ _

theorem constrain_length_b1 (st : DJState) (dt : ℝ)
    (hm : st.b1.inverse_mass = 0) (hi : st.b1.inverse_inertia = 0)
    (hq : Quat.norm st.b1.rotation = 1) :
    (DistanceJoint.constrain_length st dt).1.b1 = st.b1 := by
  cases h : st.joint.length_limits with
  | none =>
      simp only [DistanceJoint.constrain_length, h]
      exact constrain_length_core_b1 st dt _ hm hi hq
  | some l =>
      simp only [DistanceJoint.constrain_length, h]
      split
      · rfl
      · exact constrain_length_core_b1 st dt _ hm hi hq

/-- C8: for a distance joint between body A with zero inverse mass and zero
inverse inertia (a unit rotation quaternion, per the data-model invariant)
and a movable body B, `solve` leaves A's position and rotation — indeed A's
whole view — exactly unchanged, so the entire positional correction falls on
B. -/
theorem infinite_mass_unmoved (st : DJState) (dt : ℝ)
    (hm : st.b1.inverse_mass = 0) (hi : st.b1.inverse_inertia = 0)
    (hq : Quat.norm st.b1.rotation = 1) (hb2 : 0 < st.b2.inverse_mass) :
    (DistanceJoint.solve st dt).b1 = st.b1 := by
  unfold DistanceJoint.solve
  exact constrain_length_b1 st dt hm hi hq

/-- Witness for C8: a concrete joint between an immovable body at the origin
and a movable body at distance 1. -/
theorem infinite_mass_unmoved_witness :
    stC8.b1.inverse_mass = 0 ∧ 0 < stC8.b2.inverse_mass ∧
    (DistanceJoint.solve stC8 1).b1 = stC8.b1 := by
  refine ⟨rfl, by norm_num [stC8, bAt], ?_⟩
  exact infinite_mass_unmoved stC8 1 rfl rfl Quat.norm_qid (by norm_num [stC8, bAt])

theorem dj_zero_guard_elim {st : DJState} {dt : ℝ} (h : dj_zero_guard st) :
    DistanceJoint.constrain_length st dt = (st, (0 : Vec3)) := by
  unfold dj_zero_guard at h
  cases hl : st.joint.length_limits with
  | none =>
      have he : dj_effective_delta_x st = dj_raw_delta_x st := by
        unfold dj_effective_delta_x
        rw [hl]
      have hg : (dj_raw_delta_x st).length < EPSILON ∨
          |(dj_raw_delta_x st).length - st.joint.rest_length| < EPSILON := by
        rcases h with h | h
        · exact Or.inl h
        · rw [he] at h
          exact Or.inr h
      simp only [DistanceJoint.constrain_length, hl]
      unfold constrain_length_core
      rw [if_pos hg]
  | some l =>
      simp only [DistanceJoint.constrain_length, hl]
      by_cases hraw : (dj_raw_delta_x st).length < EPSILON
      · rw [if_pos hraw]
      · rw [if_neg hraw]
        unfold constrain_length_core
        rw [if_pos]
        rcases h with h | h
        · exact absurd h hraw
        · exact Or.inr h

theorem dj_solve_zero {st : DJState} {dt : ℝ} (h : dj_zero_guard st) :
    DistanceJoint.solve st dt = ⟨{ st.joint with force := 0 }, st.b1, st.b2⟩ := by
  unfold DistanceJoint.solve
  rw [dj_zero_guard_elim h]

/-- C2: a distance joint in a degenerate zero-length or zero-violation state
— its world anchor separation length below `EPSILON`, or its constraint value
`|length − rest_length|` below `EPSILON` — is a fixed point of `solve` up to
the force field: any number of `solve` calls leaves both bodies unchanged
and sets the joint's force to the zero vector each time. -/
theorem zero_guard_idempotence (st : DJState) (dt : ℝ) (h : dj_zero_guard st)
    (n : ℕ) (hn : 1 ≤ n) :
    (fun t => DistanceJoint.solve t dt)^[n] st =
      ⟨{ st.joint with force := 0 }, st.b1, st.b2⟩ := by
  obtain ⟨m, rfl⟩ : ∃ m, n = m + 1 := ⟨n - 1, by omega⟩
  have hstep : DistanceJoint.solve st dt = ⟨{ st.joint with force := 0 }, st.b1, st.b2⟩ :=
    dj_solve_zero h
  have h2 : dj_zero_guard (⟨{ st.joint with force := 0 }, st.b1, st.b2⟩ : DJState) := h
  have hfix : DistanceJoint.solve ⟨{ st.joint with force := 0 }, st.b1, st.b2⟩ dt =
      ⟨{ st.joint with force := 0 }, st.b1, st.b2⟩ := dj_solve_zero h2
  rw [Function.iterate_succ_apply, hstep]
  exact Function.iterate_fixed hfix m

theorem stZ_guard : dj_zero_guard stZ := by
  unfold dj_zero_guard
  left
  have hr : dj_raw_delta_x stZ = 0 := by
    ext <;> simp [dj_raw_delta_x, dj_world_r1, dj_world_r2, stZ, jointZ, bAt]
  rw [hr, Vec3.length_zero]
  exact EPSILON_pos

/-- Witness for C2: a joint exactly at rest length (zero separation, zero
rest length), iterated twice. -/
theorem zero_guard_idempotence_witness :
    dj_zero_guard stZ ∧
    (fun t => DistanceJoint.solve t 1)^[2] stZ =
      ⟨{ stZ.joint with force := 0 }, stZ.b1, stZ.b2⟩ :=
  ⟨stZ_guard, zero_guard_idempotence stZ 1 stZ_guard 2 (by norm_num)⟩

theorem gim_immovable (b : Body) (hm : b.inverse_mass = 0)
    (hi : b.inverse_inertia = 0) (r d : Vec3) :
    generalized_inverse_mass b r d = 0 := by
  simp [generalized_inverse_mass, hm, hi]

theorem clu_zero_w {lag c dt : ℝ} : compute_lagrange_update lag c 0 0 0 dt = 0 := by
  unfold compute_lagrange_update
  rw [if_pos]
  simp [le_of_lt EPSILON_pos]

theorem pen_state_collapse_n {s : PenState} (h1 : s.pc.normal_lagrange = 0)
    (h2 : s.pc.normal_force = 0) :
    (⟨{ s.pc with normal_lagrange := 0, normal_force := 0 }, s.b1, s.b2⟩ : PenState) = s := by
  obtain ⟨pc, b1, b2⟩ := s
  cases pc
  simp_all

theorem pen_state_collapse_t {s : PenState} (h1 : s.pc.tangent_lagrange = 0)
    (h2 : s.pc.static_friction_force = 0) :
    (⟨{ s.pc with tangent_lagrange := 0, static_friction_force := 0 }, s.b1, s.b2⟩ :
      PenState) = s := by
  obtain ⟨pc, b1, b2⟩ := s
  cases pc
  simp_all

/-- When both generalized inverse masses along the normal vanish and the
constraint is rigid with zero accumulated state, the contact phase is the
identity. -/
theorem solve_contact_noop {s : PenState} {dt : ℝ}
    (hw1 : generalized_inverse_mass s.b1 (world_r1 s) (contact_normal s) = 0)
    (hw2 : generalized_inverse_mass s.b2 (world_r2 s) (contact_normal s) = 0)
    (hc : s.pc.compliance = 0)
    (hq1 : Quat.norm s.b1.rotation = 1) (hq2 : Quat.norm s.b2.rotation = 1)
    (hl : s.pc.normal_lagrange = 0) (hf : s.pc.normal_force = 0) :
    solve_contact s dt = s := by
  have hdl : contact_delta_lagrange s dt = 0 := by
    unfold contact_delta_lagrange
    rw [hw1, hw2, hc]
    exact clu_zero_w
  unfold solve_contact
  rw [hdl, hl, add_zero, zero_div, Vec3.zero_smul', Vec3.neg_zero',
    apply_correction_zero hq1, apply_correction_zero hq2]
  exact pen_state_collapse_n hl hf

/-- When both generalized inverse masses along the tangent vanish and the
constraint is rigid with zero accumulated state, the friction phase is the
identity. -/
theorem solve_friction_noop {s : PenState} {dt : ℝ}
    (hw1 : generalized_inverse_mass s.b1 (world_r1 s) (friction_unit_tangent s) = 0)
    (hw2 : generalized_inverse_mass s.b2 (world_r2 s) (friction_unit_tangent s) = 0)
    (hc : s.pc.compliance = 0)
    (hq1 : Quat.norm s.b1.rotation = 1) (hq2 : Quat.norm s.b2.rotation = 1)
    (hl : s.pc.tangent_lagrange = 0) (hf : s.pc.static_friction_force = 0) :
    solve_friction s dt = s := by
  have hdl : friction_delta_lagrange s dt = 0 := by
    unfold friction_delta_lagrange
    rw [hw1, hw2, hc]
    exact clu_zero_w
  unfold solve_friction
  split
  · rfl
  · split
    · rw [hdl, hl, add_zero, zero_div, Vec3.zero_smul', Vec3.neg_zero',
        apply_correction_zero hq1, apply_correction_zero hq2]
      exact pen_state_collapse_t hl hf
    · rfl

theorem solve_friction_above_threshold {s : PenState} {dt : ℝ}
    (h : combined_static s * s.pc.contact.penetration < sliding_len s) :
    solve_friction s dt = s := by
  unfold solve_friction
  split
  · rfl
  · rw [if_neg (lt_asymm h)]

/-- C1 (amended): for a `solve` call whose recomputed penetration exceeds
`EPSILON`, write `mid` for the state after the contact phase.  When the
sliding magnitude strictly exceeds the combined static friction coefficient
times the penetration, the friction phase applies no tangential correction:
`solve` returns `mid` exactly, so positions, rotations, `tangent_lagrange`
and `static_friction_force` keep their prior values.  When the sliding
magnitude is strictly between `EPSILON` and that threshold, the constraint
is rigid (zero compliance) and the combined generalized inverse mass along
the tangent exceeds `EPSILON` — i.e. at least one body can actually move
along the tangent — a nonzero tangential correction is applied: the tangent
Lagrange multiplier strictly changes. -/
theorem friction_threshold (s : PenState) (dt : ℝ) (mid : PenState)
    (hmid : mid = solve_contact (set_penetration s) dt)
    (hpen : EPSILON < recomputed_penetration s) :
    (combined_static mid * mid.pc.contact.penetration < sliding_len mid →
        PenetrationConstraint.solve s dt = mid) ∧
    (EPSILON < sliding_len mid →
      sliding_len mid < combined_static mid * mid.pc.contact.penetration →
      mid.pc.compliance = 0 →
      EPSILON < friction_w_sum mid →
      (PenetrationConstraint.solve s dt).pc.tangent_lagrange ≠
        mid.pc.tangent_lagrange) := by
  have hsolve : PenetrationConstraint.solve s dt = solve_friction mid dt := by
    unfold PenetrationConstraint.solve
    rw [if_neg (not_le.mpr hpen), hmid]
  constructor
  · intro h
    rw [hsolve]
    exact solve_friction_above_threshold h
  · intro h1 h2 hcomp hw
    have hww : EPSILON <
        generalized_inverse_mass mid.b1 (world_r1 mid) (friction_unit_tangent mid) +
          generalized_inverse_mass mid.b2 (world_r2 mid) (friction_unit_tangent mid) := hw
    have hdl : friction_delta_lagrange mid dt < 0 := by
      unfold friction_delta_lagrange compute_lagrange_update
      rw [hcomp, zero_div, add_zero, zero_mul, sub_zero]
      rw [if_neg (not_le.mpr hww)]
      exact div_neg_of_neg_of_pos (neg_lt_zero.mpr (lt_trans EPSILON_pos h1))
        (lt_trans EPSILON_pos hww)
    rw [hsolve]
    unfold solve_friction
    rw [if_neg (not_le.mpr h1), if_pos h2]
    intro heq
    have heq' : mid.pc.tangent_lagrange + friction_delta_lagrange mid dt =
        mid.pc.tangent_lagrange := heq
    have hz : friction_delta_lagrange mid dt = 0 := by linarith
    exact absurd hz (ne_of_lt hdl)

theorem sK_pen : recomputed_penetration sK = 1 := by
  simp [recomputed_penetration, sK, bAt, contactZ, PenetrationConstraint.new,
    ContactData.global_normal1, Vec3.dot]

theorem sK_pen_gt : EPSILON < recomputed_penetration sK := by
  rw [sK_pen]
  norm_num [EPSILON]

theorem sK_mid : solve_contact (set_penetration sK) 1 = set_penetration sK :=
  solve_contact_noop (gim_immovable _ rfl rfl _ _) (gim_immovable _ rfl rfl _ _) rfl
    Quat.norm_qid Quat.norm_qid rfl rfl

theorem sK_tv : friction_tangent_vec (set_penetration sK) = ⟨1 / 10, 0, 0⟩ := by
  ext <;>
    simp [friction_tangent_vec, friction_delta_p, contact_normal, set_penetration,
      recomputed_penetration, sK, bAt, contactZ, PenetrationConstraint.new,
      ContactData.global_normal1, Vec3.dot] <;>
    norm_num

theorem sK_sl : sliding_len (set_penetration sK) = 1 / 10 := by
  rw [sliding_len, sK_tv, Vec3.length_xaxis]
  norm_num

theorem sK_cs : combined_static (set_penetration sK) = 1 := by
  simp [combined_static, set_penetration, sK, bAt, Friction.combine]

theorem sK_penfield : (set_penetration sK).pc.contact.penetration = 1 := sK_pen

theorem sK_fric : solve_friction (set_penetration sK) 1 = set_penetration sK :=
  solve_friction_noop (gim_immovable _ rfl rfl _ _) (gim_immovable _ rfl rfl _ _) rfl
    Quat.norm_qid Quat.norm_qid rfl rfl

theorem sK_solve : PenetrationConstraint.solve sK 1 = set_penetration sK := by
  unfold PenetrationConstraint.solve
  rw [if_neg (not_le.mpr sK_pen_gt), sK_mid, sK_fric]

/-- Counterexample for C1: two kinematic (immovable but externally moved)
bodies in contact.  The recomputed penetration is `1 > EPSILON`, and the
sliding magnitude `1/10` lies strictly between `EPSILON` and the combined
static friction coefficient times the penetration — the claim then demands a
nonzero tangential correction — yet `solve` changes nothing: the final state
equals the state after the contact phase, bodies and the tangent multiplier
keeping their prior values. -/
theorem friction_threshold_counterexample :
    EPSILON < recomputed_penetration sK ∧
    EPSILON < sliding_len (solve_contact (set_penetration sK) 1) ∧
    sliding_len (solve_contact (set_penetration sK) 1) <
      combined_static (solve_contact (set_penetration sK) 1) *
        (solve_contact (set_penetration sK) 1).pc.contact.penetration ∧
    PenetrationConstraint.solve sK 1 = solve_contact (set_penetration sK) 1 ∧
    (PenetrationConstraint.solve sK 1).b1 = sK.b1 ∧
    (PenetrationConstraint.solve sK 1).b2 = sK.b2 ∧
    (PenetrationConstraint.solve sK 1).pc.tangent_lagrange =
      sK.pc.tangent_lagrange := by
  refine ⟨sK_pen_gt, ?_, ?_, ?_, ?_, ?_, ?_⟩
  · rw [sK_mid, sK_sl]
    norm_num [EPSILON]
  · rw [sK_mid, sK_sl, sK_cs, sK_penfield]
    norm_num
  · rw [sK_mid, sK_solve]
  · rw [sK_solve]
    rfl
  · rw [sK_solve]
    rfl
  · rw [sK_solve]
    rfl

theorem sL_pen : recomputed_penetration sL = 1 := by
  simp [recomputed_penetration, sL, bAt, contactZ, PenetrationConstraint.new,
    ContactData.global_normal1, Vec3.dot]

theorem sL_pen_gt : EPSILON < recomputed_penetration sL := by
  rw [sL_pen]
  norm_num [EPSILON]

theorem sL_mid : solve_contact (set_penetration sL) 1 = set_penetration sL :=
  solve_contact_noop (gim_immovable _ rfl rfl _ _) (gim_immovable _ rfl rfl _ _) rfl
    Quat.norm_qid Quat.norm_qid rfl rfl

theorem sL_tv : friction_tangent_vec (set_penetration sL) = ⟨2, 0, 0⟩ := by
  ext <;>
    simp [friction_tangent_vec, friction_delta_p, contact_normal, set_penetration,
      recomputed_penetration, sL, bAt, contactZ, PenetrationConstraint.new,
      ContactData.global_normal1, Vec3.dot] <;>
    norm_num

theorem sL_sl : sliding_len (set_penetration sL) = 2 := by
  rw [sliding_len, sL_tv, Vec3.length_xaxis]
  norm_num

theorem sL_cs : combined_static (set_penetration sL) = 1 := by
  simp [combined_static, set_penetration, sL, bAt, Friction.combine]

theorem sL_penfield : (set_penetration sL).pc.contact.penetration = 1 := sL_pen

theorem sM_pen : recomputed_penetration sM = 1 := by
  simp [recomputed_penetration, sM, bAt, bRot, contactZ2, PenetrationConstraint.new,
    ContactData.global_normal1, Vec3.dot]
  norm_num

theorem sM_pen_gt : EPSILON < recomputed_penetration sM := by
  rw [sM_pen]
  norm_num [EPSILON]

theorem sM_w2n :
    generalized_inverse_mass (set_penetration sM).b2 (world_r2 (set_penetration sM))
      (contact_normal (set_penetration sM)) = 0 := by
  simp [generalized_inverse_mass, world_r2, contact_normal, set_penetration,
    recomputed_penetration, sM, bAt, bRot, contactZ2, matId, PenetrationConstraint.new,
    ContactData.global_normal1, Mat3.mulVec, Vec3.dot, Vec3.cross]

theorem sM_mid : solve_contact (set_penetration sM) 1 = set_penetration sM :=
  solve_contact_noop (gim_immovable _ rfl rfl _ _) sM_w2n rfl
    Quat.norm_qid Quat.norm_qid rfl rfl

theorem sM_tv : friction_tangent_vec (set_penetration sM) = ⟨1 / 10, 0, 0⟩ := by
  ext <;>
    simp [friction_tangent_vec, friction_delta_p, contact_normal, set_penetration,
      recomputed_penetration, sM, bAt, bRot, contactZ2, PenetrationConstraint.new,
      ContactData.global_normal1, Vec3.dot] <;>
    norm_num

theorem sM_sl : sliding_len (set_penetration sM) = 1 / 10 := by
  rw [sliding_len, sM_tv, Vec3.length_xaxis]
  norm_num

theorem sM_cs : combined_static (set_penetration sM) = 1 := by
  simp [combined_static, set_penetration, sM, bAt, bRot, Friction.combine]

theorem sM_penfield : (set_penetration sM).pc.contact.penetration = 1 := sM_pen

theorem sM_ut : friction_unit_tangent (set_penetration sM) = ⟨1, 0, 0⟩ := by
  rw [friction_unit_tangent, sM_sl, sM_tv]
  ext <;> simp <;> norm_num

theorem sM_wsum : friction_w_sum (set_penetration sM) = 1 := by
  unfold friction_w_sum
  rw [sM_ut]
  simp [generalized_inverse_mass, world_r1, world_r2, set_penetration,
    recomputed_penetration, sM, bAt, bRot, contactZ2, matId,
    PenetrationConstraint.new, Mat3.mulVec, Vec3.dot, Vec3.cross]

/-- Witness for C1: the above-threshold part at a state sliding by `2`
against penetration `1`; the below-threshold part at a state sliding by
`1/10` against a body free to rotate about the contact point. -/
theorem friction_threshold_witness :
    (EPSILON < recomputed_penetration sL ∧
      PenetrationConstraint.solve sL 1 = solve_contact (set_penetration sL) 1) ∧
    (EPSILON < recomputed_penetration sM ∧
      (PenetrationConstraint.solve sM 1).pc.tangent_lagrange ≠
        (solve_contact (set_penetration sM) 1).pc.tangent_lagrange) := by
  constructor
  · refine ⟨sL_pen_gt, ?_⟩
    apply (friction_threshold sL 1 _ rfl sL_pen_gt).1
    rw [sL_mid, sL_sl, sL_cs, sL_penfield]
    norm_num
  · refine ⟨sM_pen_gt, ?_⟩
    apply (friction_threshold sM 1 _ rfl sM_pen_gt).2
    · rw [sM_mid, sM_sl]
      norm_num [EPSILON]
    · rw [sM_mid, sM_sl, sM_cs, sM_penfield]
      norm_num
    · rw [sM_mid]
      rfl
    · rw [sM_mid, sM_wsum]
      norm_num [EPSILON]

theorem solve_friction_keeps_normal (s : PenState) (dt : ℝ) :
    (solve_friction s dt).pc.normal_force = s.pc.normal_force ∧
    (solve_friction s dt).pc.normal_lagrange = s.pc.normal_lagrange := by
  unfold solve_friction
  split
  · exact ⟨rfl, rfl⟩
  · split
    · exact ⟨rfl, rfl⟩
    · exact ⟨rfl, rfl⟩

/-- C7: after a `solve` call that passes the penetration guard, the
recovered forces satisfy the recovery equation `F = λ · n / dt²`: the stored
normal force equals the final normal Lagrange multiplier times the world
contact normal (as read at the start of the contact phase) divided by `dt²`;
and whenever the static-friction branch is taken, the stored static friction
force equals the final tangent Lagrange multiplier times the unit tangent
divided by `dt²`, hence is a scalar multiple of — parallel to — the sliding
vector. -/
theorem force_recovery (s : PenState) (dt : ℝ) (mid : PenState)
    (hmid : mid = solve_contact (set_penetration s) dt)
    (hpen : EPSILON < recomputed_penetration s) :
    (PenetrationConstraint.solve s dt).pc.normal_force =
      ((PenetrationConstraint.solve s dt).pc.normal_lagrange / dt ^ 2) •
        contact_normal (set_penetration s) ∧
    (EPSILON < sliding_len mid →
      sliding_len mid < combined_static mid * mid.pc.contact.penetration →
      (PenetrationConstraint.solve s dt).pc.static_friction_force =
        ((PenetrationConstraint.solve s dt).pc.tangent_lagrange / dt ^ 2) •
          friction_unit_tangent mid ∧
      ∃ k : ℝ, (PenetrationConstraint.solve s dt).pc.static_friction_force =
        k • friction_tangent_vec mid) := by
  have hsolve : PenetrationConstraint.solve s dt = solve_friction mid dt := by
    unfold PenetrationConstraint.solve
    rw [if_neg (not_le.mpr hpen), hmid]
  constructor
  · rw [hsolve, (solve_friction_keeps_normal mid dt).1,
      (solve_friction_keeps_normal mid dt).2, hmid]
    rfl
  · intro h1 h2
    rw [hsolve]
    unfold solve_friction
    rw [if_neg (not_le.mpr h1), if_pos h2]
    refine ⟨rfl, ?_⟩
    refine ⟨((mid.pc.tangent_lagrange + friction_delta_lagrange mid dt) / dt ^ 2) *
      (1 / sliding_len mid), ?_⟩
    show ((mid.pc.tangent_lagrange + friction_delta_lagrange mid dt) / dt ^ 2) •
        ((1 / sliding_len mid) • friction_tangent_vec mid) = _
    exact Vec3.smul_smul' _ _ _

/-- Witness for C7 at the kinematic contact state `sK`, whose friction
branch is taken. -/
theorem force_recovery_witness :
    EPSILON < recomputed_penetration sK ∧
    EPSILON < sliding_len (solve_contact (set_penetration sK) 1) ∧
    (PenetrationConstraint.solve sK 1).pc.normal_force =
      ((PenetrationConstraint.solve sK 1).pc.normal_lagrange / (1 : ℝ) ^ 2) •
        contact_normal (set_penetration sK) ∧
    (∃ k : ℝ, (PenetrationConstraint.solve sK 1).pc.static_friction_force =
      k • friction_tangent_vec (solve_contact (set_penetration sK) 1)) := by
  have h1 : EPSILON < sliding_len (solve_contact (set_penetration sK) 1) := by
    rw [sK_mid, sK_sl]
    norm_num [EPSILON]
  have h2 : sliding_len (solve_contact (set_penetration sK) 1) <
      combined_static (solve_contact (set_penetration sK) 1) *
        (solve_contact (set_penetration sK) 1).pc.contact.penetration := by
    rw [sK_mid, sK_sl, sK_cs, sK_penfield]
    norm_num
  have h := force_recovery sK 1 (solve_contact (set_penetration sK) 1) rfl sK_pen_gt
  exact ⟨sK_pen_gt, h1, h.1, (h.2 h1 h2).2⟩

/-- C6 (amended): when limits are configured and the raw anchor separation
length is at least `EPSILON`, `constrain_length` coincides with the
spec-worded algorithm: the separation vector used for the constraint is the
raw world anchor separation plus the limit's correction vector computed from
the two world anchor points, and the length is recomputed from that sum
before forming the constraint value.  (When the raw separation length is
positive but below `EPSILON`, the code instead returns a zero force without
applying the limit correction; see the counterexample.) -/
theorem limit_correction (st : DJState) (dt : ℝ) (l : DistanceLimit)
    (hl : st.joint.length_limits = some l)
    (hlen : EPSILON ≤ (dj_raw_delta_x st).length) :
    DistanceJoint.constrain_length st dt = constrain_length_worded st dt ∧
    dj_effective_delta_x st =
      dj_raw_delta_x st +
        l.compute_correction (st.b1.position + dj_world_r1 st)
          (st.b2.position + dj_world_r2 st) := by
  constructor
  · simp only [DistanceJoint.constrain_length, hl]
    rw [if_neg (not_lt.mpr hlen)]
    rfl
  · simp only [dj_effective_delta_x, hl]

theorem stC6w_raw : dj_raw_delta_x stC6w = ⟨1, 0, 0⟩ := by
  ext <;> simp [dj_raw_delta_x, dj_world_r1, dj_world_r2, stC6w, jointLim, jointZ, bAt]

/-- Witness for C6 at a limited joint with raw separation 1. -/
theorem limit_correction_witness :
    stC6w.joint.length_limits = some ⟨2, 3⟩ ∧
    EPSILON ≤ (dj_raw_delta_x stC6w).length ∧
    DistanceJoint.constrain_length stC6w 1 = constrain_length_worded stC6w 1 := by
  have hlen : EPSILON ≤ (dj_raw_delta_x stC6w).length := by
    rw [stC6w_raw, Vec3.length_xaxis]
    norm_num [EPSILON]
  exact ⟨rfl, hlen, (limit_correction stC6w 1 ⟨2, 3⟩ rfl hlen).1⟩

theorem stC6c_raw : dj_raw_delta_x stC6c = ⟨EPSILON / 2, 0, 0⟩ := by
  ext <;> simp [dj_raw_delta_x, dj_world_r1, dj_world_r2, stC6c, jointLim, jointZ, bAt]

theorem stC6c_rawlen : (dj_raw_delta_x stC6c).length = EPSILON / 2 := by
  rw [stC6c_raw, Vec3.length_xaxis,
    abs_of_pos (by norm_num [EPSILON] : (0 : ℝ) < EPSILON / 2)]

theorem stC6c_p1 : stC6c.b1.position + dj_world_r1 stC6c = ⟨EPSILON / 2, 0, 0⟩ := by
  ext <;> simp [dj_world_r1, stC6c, jointLim, jointZ, bAt]

theorem stC6c_p2 : stC6c.b2.position + dj_world_r2 stC6c = 0 := by
  ext <;> simp [dj_world_r2, stC6c, jointLim, jointZ, bAt]

theorem stC6c_corr :
    DistanceLimit.compute_correction ⟨2, 3⟩ ⟨EPSILON / 2, 0, 0⟩ 0 = ⟨-2, 0, 0⟩ := by
  unfold DistanceLimit.compute_correction
  rw [Vec3.sub_zero', Vec3.length_xaxis,
    abs_of_pos (by norm_num [EPSILON] : (0 : ℝ) < EPSILON / 2),
    if_pos (by norm_num [EPSILON] : EPSILON / 2 < (2 : ℝ))]
  ext <;> simp <;> norm_num [EPSILON]

theorem stC6c_eff : dj_effective_delta_x stC6c = ⟨EPSILON / 2 - 2, 0, 0⟩ := by
  simp only [dj_effective_delta_x,
    show stC6c.joint.length_limits = some (⟨2, 3⟩ : DistanceLimit) from rfl]
  rw [stC6c_p1, stC6c_p2, stC6c_corr, stC6c_raw]
  ext <;> simp <;> ring

theorem stC6c_efflen : (dj_effective_delta_x stC6c).length = 2 - EPSILON / 2 := by
  rw [stC6c_eff, Vec3.length_xaxis,
    abs_of_neg (by norm_num [EPSILON] : EPSILON / 2 - 2 < (0 : ℝ))]
  ring

theorem gim_mass_only (b : Body) (hi : b.inverse_inertia = 0) (r d : Vec3) :
    generalized_inverse_mass b r d = b.inverse_mass := by
  simp [generalized_inverse_mass, hi]

theorem stC6c_core_guard :
    ¬((dj_effective_delta_x stC6c).length < EPSILON ∨
      |(dj_effective_delta_x stC6c).length - stC6c.joint.rest_length| < EPSILON) := by
  rw [stC6c_efflen, show stC6c.joint.rest_length = (0 : ℝ) from rfl, sub_zero,
    abs_of_pos (by norm_num [EPSILON] : (0 : ℝ) < 2 - EPSILON / 2)]
  norm_num [EPSILON]

theorem stC6c_worded_x :
    (constrain_length_worded stC6c 1).2.x = (2 - EPSILON / 2) / 2 := by
  simp only [constrain_length_worded, constrain_length_core]
  rw [if_neg stC6c_core_guard]
  rw [gim_mass_only _ rfl, gim_mass_only _ rfl]
  rw [show stC6c.b1.inverse_mass = (1 : ℝ) from rfl,
    show stC6c.b2.inverse_mass = (1 : ℝ) from rfl,
    show stC6c.joint.rest_length = (0 : ℝ) from rfl,
    show stC6c.joint.lagrange = (0 : ℝ) from rfl,
    show stC6c.joint.compliance = (0 : ℝ) from rfl]
  rw [stC6c_efflen]
  unfold compute_lagrange_update
  rw [if_neg (by norm_num [EPSILON] :
    ¬((1 : ℝ) + 1 + 0 / 1 ^ 2 ≤ EPSILON))]
  rw [stC6c_eff]
  simp
  norm_num [EPSILON]

/-- Counterexample for C6: with limits configured and a positive raw anchor
separation below `EPSILON`, the code returns a zero force and leaves the
state alone, while the spec-worded algorithm (raw separation plus limit
correction, length recomputed from that sum) applies a nonzero correction —
so the claim's "this holds for every body configuration, including when the
raw anchor separation is arbitrarily small" fails. -/
theorem limit_correction_counterexample :
    stC6c.joint.length_limits = some ⟨2, 3⟩ ∧
    0 < (dj_raw_delta_x stC6c).length ∧
    (dj_raw_delta_x stC6c).length < EPSILON ∧
    DistanceJoint.constrain_length stC6c 1 ≠ constrain_length_worded stC6c 1 := by
  have hlt : (dj_raw_delta_x stC6c).length < EPSILON := by
    rw [stC6c_rawlen]
    norm_num [EPSILON]
  refine ⟨rfl, ?_, hlt, ?_⟩
  · rw [stC6c_rawlen]
    norm_num [EPSILON]
  · intro heq
    have h0 : DistanceJoint.constrain_length stC6c 1 = (stC6c, (0 : Vec3)) := by
      simp only [DistanceJoint.constrain_length,
        show stC6c.joint.length_limits = some (⟨2, 3⟩ : DistanceLimit) from rfl]
      rw [if_pos hlt]
    have hx : (DistanceJoint.constrain_length stC6c 1).2.x =
        (constrain_length_worded stC6c 1).2.x := by rw [heq]
    rw [h0, stC6c_worded_x] at hx
    simp at hx
    norm_num [EPSILON] at hx

end

end BevyXpbd
